import Mathlib

/-!
Verification of the FortanixVME enclave-runner relay server
(`FortanixVME/enclave-runner/src/server.rs`) and of the AESM client helpers
(`aesm-client/src/lib.rs`), via a shallow embedding in Lean 4.

Streams are modelled as explicit state (lists of bytes plus status flags);
fallible operations return `Except`/`Option`; I/O performed by the server is
recorded as an explicit trace of actions.
-/

namespace RustSgx

/-- Constant `BUFF_SIZE` from server.rs: chunk size of the control-stream read loop. -/
def BUFF_SIZE : Nat := 1024

/-- Constant `PROXY_BUFF_SIZE` from server.rs: buffer size of the data-plane relay. -/
def PROXY_BUFF_SIZE : Nat := 4192

/-- Translated from `Server::read_from_stream`.  The stream is modelled by the
list `pending` of bytes it has delivered and not yet consumed, with the peer
keeping the connection open afterwards, so a `read` call returns
`min BUFF_SIZE pending.length` bytes when data is available and blocks when
`pending` is empty.  `none` models the blocked read.  The source reads one
chunk of up to `BUFF_SIZE` bytes and, exactly when the read returned a full
`BUFF_SIZE` bytes, recurses and appends the recursive result. -/
def read_from_stream (pending : List Nat) : Option (List Nat) :=
  if h : pending = [] then
    none
  else
    let chunk := pending.take BUFF_SIZE
    if chunk.length = BUFF_SIZE then
      match read_from_stream (pending.drop BUFF_SIZE) with
      | none => none
      | some more => some (chunk ++ more)
    else
      some chunk
termination_by pending.length
decreasing_by
  have hp : 0 < pending.length := List.length_pos.mpr h
  simp only [List.length_drop, BUFF_SIZE]
  omega

/-- Same recursion as `read_from_stream`, additionally counting the number of
`read` calls issued on the stream. -/
def readFromStreamReads (pending : List Nat) : Option (List Nat × Nat) :=
  if h : pending = [] then
    none
  else
    let chunk := pending.take BUFF_SIZE
    if chunk.length = BUFF_SIZE then
      match readFromStreamReads (pending.drop BUFF_SIZE) with
      | none => none
      | some (more, k) => some (chunk ++ more, k + 1)
    else
      some (chunk, 1)
termination_by pending.length
decreasing_by
  have hp : 0 < pending.length := List.length_pos.mpr h
  simp only [List.length_drop, BUFF_SIZE]
  omega

/-- When the delivered message is an exact multiple of the chunk size, the
reader ends up issuing a read on an empty stream and blocks. -/
lemma read_from_stream_multiple_none :
    ∀ fuel (msg : List Nat), msg.length ≤ fuel → msg.length % BUFF_SIZE = 0 →
      read_from_stream msg = none := by
  intro fuel
  induction fuel with
  | zero =>
    intro msg h1 _h2
    have : msg = [] := List.eq_nil_of_length_eq_zero (Nat.le_zero.mp h1)
    rw [read_from_stream.eq_def, this]
    simp
  | succ n ih =>
    intro msg h1 h2
    rw [read_from_stream.eq_def]
    by_cases hm : msg = []
    · simp [hm]
    · have hp : 0 < msg.length := List.length_pos.mpr hm
      have hge : BUFF_SIZE ≤ msg.length := by
        unfold BUFF_SIZE at h2 ⊢
        omega
      have hlen : (msg.take BUFF_SIZE).length = BUFF_SIZE := by
        simp [List.length_take]
        omega
      have hdroplen : (msg.drop BUFF_SIZE).length = msg.length - BUFF_SIZE := by
        simp [List.length_drop]
      have hrec : read_from_stream (msg.drop BUFF_SIZE) = none := by
        apply ih
        · rw [hdroplen]
          unfold BUFF_SIZE at hge ⊢
          omega
        · rw [hdroplen]
          unfold BUFF_SIZE at h2 hge ⊢
          omega
      simp [hm, hlen, hrec]

/-- C4: the request reader reads fixed-size chunks of `BUFF_SIZE = 1024` bytes
and appends them, stopping exactly when a read returns fewer bytes than the
chunk size.  A stream delivering a (nonempty) message shorter than 1024 bytes
is returned whole after a single chunk read; a message whose length is an
exact multiple of 1024 leads the reader to issue a further blocking read
instead of returning. -/
theorem c4_read_chunking (msg1 msg2 : List Nat)
    (h1 : 0 < msg1.length) (h2 : msg1.length < BUFF_SIZE)
    (h3 : msg2.length % BUFF_SIZE = 0) :
    BUFF_SIZE = 1024 ∧
    readFromStreamReads msg1 = some (msg1, 1) ∧
    read_from_stream msg2 = none := by
  refine ⟨rfl, ?_, read_from_stream_multiple_none msg2.length msg2 le_rfl h3⟩
  have hm : msg1 ≠ [] := by
    intro hc
    rw [hc] at h1
    simp at h1
  have htake : msg1.take BUFF_SIZE = msg1 :=
    List.take_of_length_le (Nat.le_of_lt h2)
  have hne : msg1.length ≠ BUFF_SIZE := Nat.ne_of_lt h2
  rw [readFromStreamReads.eq_def]
  simp [hm, htake, hne]

/-- Witness for C4 at the boundary lengths named by the spec: a 1023-byte
message is returned whole in one read, a 1024-byte message blocks. -/
theorem c4_read_chunking_witness :
    BUFF_SIZE = 1024 ∧
    readFromStreamReads (List.replicate 1023 7) = some (List.replicate 1023 7, 1) ∧
    read_from_stream (List.replicate 1024 7) = none :=
  c4_read_chunking (List.replicate 1023 7) (List.replicate 1024 7)
    (by simp only [List.length_replicate]; omega)
    (by simp only [List.length_replicate, BUFF_SIZE]; omega)
    (by simp only [List.length_replicate, BUFF_SIZE])

/-! ## Protocol codec

Modelled from the spec: the `Request`/`Response` types and their compact
binary serialization live in the `fortanix_vme_abi` crate and `serde_cbor`,
which are not part of the sources at hand; the spec describes them as an
externally tagged binary encoding of the two tagged unions with the round-trip
property.  We model the CBOR encoding of the two variants (maps with text-string
keys, unsigned integers, definite lengths), with strings represented by their
UTF-8 byte lists. -/

/-- Modelled from the spec: CBOR head (missing serde_cbor crate) -- major type plus an unsigned argument `n < 2^64`, big-endian
length encoding as in RFC 8949. -/
def encodeHead (major : Nat) (n : Nat) : List Nat :=
  if n < 24 then [major * 32 + n]
  else if n < 256 then [major * 32 + 24, n]
  else if n < 65536 then [major * 32 + 25, n / 256, n % 256]
  else if n < 4294967296 then
    [major * 32 + 26, n / 16777216 % 256, n / 65536 % 256, n / 256 % 256, n % 256]
  else
    [major * 32 + 27, n / 72057594037927936 % 256, n / 281474976710656 % 256,
     n / 1099511627776 % 256, n / 4294967296 % 256, n / 16777216 % 256,
     n / 65536 % 256, n / 256 % 256, n % 256]

/-- Modelled from the spec: parse a CBOR head, returning the major type, the argument and the rest of
the input. -/
def parseHead : List Nat → Option (Nat × Nat × List Nat)
  | [] => none
  | b :: rest =>
    let major := b / 32
    let info := b % 32
    if info < 24 then some (major, info, rest)
    else if info = 24 then
      match rest with
      | x :: r => some (major, x, r)
      | _ => none
    else if info = 25 then
      match rest with
      | x1 :: x2 :: r => some (major, x1 * 256 + x2, r)
      | _ => none
    else if info = 26 then
      match rest with
      | x1 :: x2 :: x3 :: x4 :: r =>
        some (major, ((x1 * 256 + x2) * 256 + x3) * 256 + x4, r)
      | _ => none
    else if info = 27 then
      match rest with
      | x1 :: x2 :: x3 :: x4 :: x5 :: x6 :: x7 :: x8 :: r =>
        some (major,
          ((((((x1 * 256 + x2) * 256 + x3) * 256 + x4) * 256 + x5) * 256 + x6)
            * 256 + x7) * 256 + x8, r)
      | _ => none
    else none

lemma parseHead_encodeHead (major n : Nat) (hm : major < 8) (hn : n < 2 ^ 64)
    (rest : List Nat) :
    parseHead (encodeHead major n ++ rest) = some (major, n, rest) := by
  unfold encodeHead
  split_ifs with h1 h2 h3 h4
  · have e1 : (major * 32 + n) / 32 = major := by omega
    have e2 : (major * 32 + n) % 32 = n := by omega
    simp [parseHead, e1, e2, h1]
  · have e1 : (major * 32 + 24) / 32 = major := by omega
    have e2 : (major * 32 + 24) % 32 = 24 := by omega
    simp [parseHead, e1, e2]
  · have e1 : (major * 32 + 25) / 32 = major := by omega
    have e2 : (major * 32 + 25) % 32 = 25 := by omega
    have e3 : n / 256 * 256 + n % 256 = n := by omega
    simp [parseHead, e1, e2, e3]
  · have e1 : (major * 32 + 26) / 32 = major := by omega
    have e2 : (major * 32 + 26) % 32 = 26 := by omega
    have e3 : ((n / 16777216 % 256 * 256 + n / 65536 % 256) * 256
        + n / 256 % 256) * 256 + n % 256 = n := by omega
    simp [parseHead, e1, e2, e3]
  · have e1 : (major * 32 + 27) / 32 = major := by omega
    have e2 : (major * 32 + 27) % 32 = 27 := by omega
    have e3 : ((((((n / 72057594037927936 % 256 * 256
        + n / 281474976710656 % 256) * 256 + n / 1099511627776 % 256) * 256
        + n / 4294967296 % 256) * 256 + n / 16777216 % 256) * 256
        + n / 65536 % 256) * 256 + n / 256 % 256) * 256 + n % 256 = n := by
      omega
    simp [parseHead, e1, e2, e3]

/-- Modelled from the spec: CBOR definite-length text string, a head with major type 3 followed by the bytes. -/
def encodeText (s : List Nat) : List Nat :=
  encodeHead 3 s.length ++ s

/-- Modelled from the spec: parse a CBOR text string, returning its bytes and the rest of the input. -/
def parseText (l : List Nat) : Option (List Nat × List Nat) :=
  match parseHead l with
  | some (3, len, rest) =>
    if len ≤ rest.length then some (rest.take len, rest.drop len) else none
  | _ => none

/-- Modelled from the spec: CBOR unsigned integer, a head with major type 0. -/
def encodeUint (n : Nat) : List Nat :=
  encodeHead 0 n

/-- Modelled from the spec: parse a CBOR unsigned integer. -/
def parseUint (l : List Nat) : Option (Nat × List Nat) :=
  match parseHead l with
  | some (0, n, rest) => some (n, rest)
  | _ => none

lemma parseText_encodeText (s rest : List Nat) (hs : s.length < 2 ^ 64) :
    parseText (encodeText s ++ rest) = some (s, rest) := by
  unfold encodeText parseText
  rw [List.append_assoc, parseHead_encodeHead 3 s.length (by omega) hs]
  simp [List.take_left, List.drop_left]

lemma parseUint_encodeUint (n : Nat) (rest : List Nat) (hn : n < 2 ^ 64) :
    parseUint (encodeUint n ++ rest) = some (n, rest) := by
  unfold encodeUint parseUint
  rw [parseHead_encodeHead 0 n (by omega) hn]

/-- Modelled from the spec: `Request` from the missing `fortanix_vme_abi` crate, the
tagged union sent by the enclave, with its single current variant
`Connect { addr }`.  `addr` holds the UTF-8 bytes of the address string. -/
inductive Request where
  | Connect (addr : List Nat)
deriving DecidableEq

/-- Modelled from the spec: `Response` from the missing `fortanix_vme_abi` crate,
`Connected { port, local_addr, peer_addr }`. -/
inductive Response where
  | Connected (port : Nat) (local_addr : List Nat) (peer_addr : List Nat)
deriving DecidableEq

/-- Modelled from the spec: the protocol-level `Error`, covering deserialization
failure of an inbound message. -/
inductive AbiError where
  | DeserializationError
deriving DecidableEq

/-- UTF-8 bytes of the variant key "Connect". -/
def keyConnect : List Nat := [67, 111, 110, 110, 101, 99, 116]

/-- UTF-8 bytes of the field key "addr". -/
def keyAddr : List Nat := [97, 100, 100, 114]

/-- UTF-8 bytes of the variant key "Connected". -/
def keyConnected : List Nat := [67, 111, 110, 110, 101, 99, 116, 101, 100]

/-- UTF-8 bytes of the field key "port". -/
def keyPort : List Nat := [112, 111, 114, 116]

/-- UTF-8 bytes of the field key "local_addr". -/
def keyLocalAddr : List Nat := [108, 111, 99, 97, 108, 95, 97, 100, 100, 114]

/-- UTF-8 bytes of the field key "peer_addr". -/
def keyPeerAddr : List Nat := [112, 101, 101, 114, 95, 97, 100, 100, 114]

/-- Modelled from the spec: externally tagged encoding of `Request`, as serde_cbor produces it --
a one-entry map from the variant name to a map of its fields. -/
def encodeRequest : Request → List Nat
  | .Connect addr =>
    encodeHead 5 1 ++ encodeText keyConnect ++
    encodeHead 5 1 ++ encodeText keyAddr ++ encodeText addr

/-- Modelled from the spec: externally tagged encoding of `Response`. -/
def encodeResponse : Response → List Nat
  | .Connected port la pa =>
    encodeHead 5 1 ++ encodeText keyConnected ++
    encodeHead 5 3 ++ encodeText keyPort ++ encodeUint port ++
    encodeText keyLocalAddr ++ encodeText la ++
    encodeText keyPeerAddr ++ encodeText pa

/-- Modelled from the spec: decoding of `Request` bytes; consumes the whole input or fails, as
`serde_cbor::from_slice` does. -/
def decodeRequest (l : List Nat) : Except AbiError Request :=
  match parseHead l with
  | some (major, count, r1) =>
    if major = 5 ∧ count = 1 then
      match parseText r1 with
      | some (k, r2) =>
        if k = keyConnect then
          match parseHead r2 with
          | some (major2, count2, r3) =>
            if major2 = 5 ∧ count2 = 1 then
              match parseText r3 with
              | some (k2, r4) =>
                if k2 = keyAddr then
                  match parseText r4 with
                  | some (addr, r5) =>
                    if r5 = [] then Except.ok (Request.Connect addr)
                    else Except.error AbiError.DeserializationError
                  | none => Except.error AbiError.DeserializationError
                else Except.error AbiError.DeserializationError
              | none => Except.error AbiError.DeserializationError
            else Except.error AbiError.DeserializationError
          | none => Except.error AbiError.DeserializationError
        else Except.error AbiError.DeserializationError
      | none => Except.error AbiError.DeserializationError
    else Except.error AbiError.DeserializationError
  | none => Except.error AbiError.DeserializationError

/-- Modelled from the spec: decoding of `Response` bytes. -/
def decodeResponse (l : List Nat) : Except AbiError Response :=
  match parseHead l with
  | some (major, count, r1) =>
    if major = 5 ∧ count = 1 then
      match parseText r1 with
      | some (k, r2) =>
        if k = keyConnected then
          match parseHead r2 with
          | some (major2, count2, r3) =>
            if major2 = 5 ∧ count2 = 3 then
              match parseText r3 with
              | some (k2, r4) =>
                if k2 = keyPort then
                  match parseUint r4 with
                  | some (port, r5) =>
                    match parseText r5 with
                    | some (k3, r6) =>
                      if k3 = keyLocalAddr then
                        match parseText r6 with
                        | some (la, r7) =>
                          match parseText r7 with
                          | some (k4, r8) =>
                            if k4 = keyPeerAddr then
                              match parseText r8 with
                              | some (pa, r9) =>
                                if r9 = [] then
                                  Except.ok (Response.Connected port la pa)
                                else Except.error AbiError.DeserializationError
                              | none => Except.error AbiError.DeserializationError
                            else Except.error AbiError.DeserializationError
                          | none => Except.error AbiError.DeserializationError
                        | none => Except.error AbiError.DeserializationError
                      else Except.error AbiError.DeserializationError
                    | none => Except.error AbiError.DeserializationError
                  | none => Except.error AbiError.DeserializationError
                else Except.error AbiError.DeserializationError
              | none => Except.error AbiError.DeserializationError
            else Except.error AbiError.DeserializationError
          | none => Except.error AbiError.DeserializationError
        else Except.error AbiError.DeserializationError
      | none => Except.error AbiError.DeserializationError
    else Except.error AbiError.DeserializationError
  | none => Except.error AbiError.DeserializationError

lemma parseHead_five_one (rest : List Nat) :
    parseHead (encodeHead 5 1 ++ rest) = some (5, 1, rest) :=
  parseHead_encodeHead 5 1 (by norm_num) (by norm_num) rest

lemma parseHead_five_three (rest : List Nat) :
    parseHead (encodeHead 5 3 ++ rest) = some (5, 3, rest) :=
  parseHead_encodeHead 5 3 (by norm_num) (by norm_num) rest

lemma parseText_keyConnect (rest : List Nat) :
    parseText (encodeText keyConnect ++ rest) = some (keyConnect, rest) :=
  parseText_encodeText _ _ (by decide)

lemma parseText_keyAddr (rest : List Nat) :
    parseText (encodeText keyAddr ++ rest) = some (keyAddr, rest) :=
  parseText_encodeText _ _ (by decide)

lemma parseText_keyConnected (rest : List Nat) :
    parseText (encodeText keyConnected ++ rest) = some (keyConnected, rest) :=
  parseText_encodeText _ _ (by decide)

lemma parseText_keyPort (rest : List Nat) :
    parseText (encodeText keyPort ++ rest) = some (keyPort, rest) :=
  parseText_encodeText _ _ (by decide)

lemma parseText_keyLocalAddr (rest : List Nat) :
    parseText (encodeText keyLocalAddr ++ rest) = some (keyLocalAddr, rest) :=
  parseText_encodeText _ _ (by decide)

lemma parseText_keyPeerAddr (rest : List Nat) :
    parseText (encodeText keyPeerAddr ++ rest) = some (keyPeerAddr, rest) :=
  parseText_encodeText _ _ (by decide)

lemma parseText_encodeText_nil (s : List Nat) (hs : s.length < 2 ^ 64) :
    parseText (encodeText s) = some (s, []) := by
  have := parseText_encodeText s [] hs
  simpa using this

lemma decodeRequest_encodeRequest (addr : List Nat) (h : addr.length < 2 ^ 64) :
    decodeRequest (encodeRequest (Request.Connect addr)) =
      Except.ok (Request.Connect addr) := by
  unfold encodeRequest decodeRequest
  simp only [List.append_assoc, parseHead_five_one, parseText_keyConnect,
    parseText_keyAddr, parseText_encodeText_nil addr h]
  simp

lemma decodeResponse_encodeResponse (port : Nat) (la pa : List Nat)
    (hp : port < 2 ^ 64) (hla : la.length < 2 ^ 64) (hpa : pa.length < 2 ^ 64) :
    decodeResponse (encodeResponse (Response.Connected port la pa)) =
      Except.ok (Response.Connected port la pa) := by
  unfold encodeResponse decodeResponse
  simp only [List.append_assoc, parseHead_five_one, parseHead_five_three,
    parseText_keyConnected, parseText_keyPort, parseText_keyLocalAddr,
    parseText_keyPeerAddr, parseUint_encodeUint port _ hp,
    parseText_encodeText la _ hla, parseText_encodeText_nil pa hpa]
  simp

/-- C8: encoding a valid `Request` or `Response` with the protocol codec and
decoding the resulting bytes yields a value equal to the original.  Validity:
address strings fit in a `usize` length and the port fits in `u16`. -/
theorem c8_codec_roundtrip (addr la pa : List Nat) (port : Nat)
    (h1 : addr.length < 2 ^ 64) (h2 : la.length < 2 ^ 64)
    (h3 : pa.length < 2 ^ 64) (h4 : port < 65536) :
    decodeRequest (encodeRequest (Request.Connect addr)) =
      Except.ok (Request.Connect addr) ∧
    decodeResponse (encodeResponse (Response.Connected port la pa)) =
      Except.ok (Response.Connected port la pa) :=
  ⟨decodeRequest_encodeRequest addr h1,
   decodeResponse_encodeResponse port la pa (by omega) h2 h3⟩

/-- Witness for C8 on the concrete request `Connect "127.0.0.1:9000"` and a
concrete `Connected` response. -/
theorem c8_codec_roundtrip_witness :
    decodeRequest (encodeRequest (Request.Connect
      [49, 50, 55, 46, 48, 46, 48, 46, 49, 58, 57, 48, 48, 48])) =
      Except.ok (Request.Connect
        [49, 50, 55, 46, 48, 46, 48, 46, 49, 58, 57, 48, 48, 48]) ∧
    decodeResponse (encodeResponse (Response.Connected 34500
      [49, 50, 55, 46, 48, 46, 48, 46, 49] [49, 48, 46, 48, 46, 48, 46, 50])) =
      Except.ok (Response.Connected 34500
        [49, 50, 55, 46, 48, 46, 48, 46, 49] [49, 48, 46, 48, 46, 48, 46, 50]) :=
  c8_codec_roundtrip _ _ _ _ (by decide) (by decide) (by decide) (by decide)

/-! ## Control-connection handling (`Server::handle_client`,
`Server::handle_request_connect`, and the worker closure in `Server::run`)

I/O is recorded as an explicit trace of actions.  Fallible host operations
(connect, bind, `local_addr`, `local`, `peer`, write, accept) are resolved by
an environment record; `some e` models `Err(e)` with `e` a numeric
`io::Error` code, `none` models `Ok`. -/

/-- Model of `std::net::Shutdown`. -/
inductive Shut where
  | Rd
  | Wr
  | Both
deriving DecidableEq

/-- Observable I/O actions of a control-connection worker. -/
inductive Action where
  | connectRemote (addr : List Nat)
  | bindListener (host : String) (port : Nat)
  | writeControl (bytes : List Nat)
  | acceptData
  | shutdownStream (how : Shut)
  | logError
deriving DecidableEq

/-- Outcomes of the fallible host operations used by
`Server::handle_request_connect`, plus the values the successful ones
return. -/
structure ConnectEnv where
  connectErr : Option Nat
  bindErr : Option Nat
  portErr : Option Nat
  assignedPort : Nat
  localErr : Option Nat
  localAddr : List Nat
  peerErr : Option Nat
  peerAddr : List Nat
  writeErr : Option Nat
  acceptErr : Option Nat
deriving DecidableEq

/-- Translated from `Server::handle_request_connect`, up to the point where
the data-plane relay loop is entered (the relay loop itself is modelled
separately by `relayStep`).  Returns the trace of performed actions and
`some e` iff the function returned `Err(e)`; `none` means it reached the
relay loop.  The source connects to the remote, binds a listener on
`"127.0.0.1:0"`, reads the assigned port, builds
`Response::Connected { port, local_addr, peer_addr }` from the control
stream's endpoint identities, CBOR-encodes and writes it to the control
stream, then blocks accepting the data connection; every failure is
propagated with `?`. -/
def handle_request_connect (addr : List Nat) (env : ConnectEnv) :
    List Action × Option Nat :=
  let t1 := [Action.connectRemote addr]
  match env.connectErr with
  | some e => (t1, some e)
  | none =>
    let t2 := t1 ++ [Action.bindListener "127.0.0.1" 0]
    match env.bindErr with
    | some e => (t2, some e)
    | none =>
      match env.portErr with
      | some e => (t2, some e)
      | none =>
        match env.localErr with
        | some e => (t2, some e)
        | none =>
          match env.peerErr with
          | some e => (t2, some e)
          | none =>
            let bytes := encodeResponse
              (Response.Connected env.assignedPort env.localAddr env.peerAddr)
            match env.writeErr with
            | some e => (t2, some e)
            | none =>
              let t3 := t2 ++ [Action.writeControl bytes]
              match env.acceptErr with
              | some e => (t3 ++ [Action.acceptData], some e)
              | none => (t3 ++ [Action.acceptData], none)

/-- Translated from `Server::handle_client`: read one request from the
control stream (`read_from_stream` on the delivered bytes), CBOR-decode it,
dispatch `Connect` to `handle_request_connect`; a decode failure becomes an
`InvalidInput` error (code 22).  `none` models the worker blocking forever in
the request read. -/
def handle_client (msg : List Nat) (env : ConnectEnv) :
    Option (List Action × Option Nat) :=
  match read_from_stream msg with
  | none => none
  | some bytes =>
    match decodeRequest bytes with
    | Except.error _ => some ([], some 22)
    | Except.ok (Request.Connect addr) => some (handle_request_connect addr env)

/-- Translated from the worker closure spawned in `Server::run`: run
`handle_client`; if it returns an error, log it and shut the control stream
down in both directions; otherwise do nothing further. -/
def worker (msg : List Nat) (env : ConnectEnv) : Option (List Action) :=
  match handle_client msg env with
  | none => none
  | some (tr, some _e) =>
    some (tr ++ [Action.logError, Action.shutdownStream Shut.Both])
  | some (tr, none) => some tr

/-- An environment in which every host operation succeeds. -/
def envOk : ConnectEnv :=
  { connectErr := none
    bindErr := none
    portErr := none
    assignedPort := 34500
    localErr := none
    localAddr := [49, 50, 55, 46, 48, 46, 48, 46, 49, 58, 51, 50, 48, 48]
    peerErr := none
    peerAddr := [49, 50, 55, 46, 48, 46, 48, 46, 49, 58, 52, 49, 48, 48]
    writeErr := none
    acceptErr := none }

/-- A concrete well-formed control message: the encoding of
`Request::Connect { addr: "ex" }`. -/
def msgEx : List Nat := encodeRequest (Request.Connect [101, 120])

/-- C3: a control connection whose received bytes do not decode as a valid
`Request` is aborted: the worker writes no response bytes, shuts the stream
down in both directions, surfaces the error locally (log), and sends nothing
else to the client. -/
theorem c3_undecodable_request_aborts (msg : List Nat) (env : ConnectEnv)
    (bytes : List Nat) (e : AbiError)
    (hr : read_from_stream msg = some bytes)
    (hd : decodeRequest bytes = Except.error e) :
    worker msg env = some [Action.logError, Action.shutdownStream Shut.Both] := by
  unfold worker handle_client
  rw [hr]
  simp only [hd]
  simp

/-- Witness for C3: the single byte `0x00` is valid CBOR (the integer 0) but
not a `Request`; the worker's whole trace is log-and-shutdown. -/
theorem c3_undecodable_request_aborts_witness :
    worker [0] envOk = some [Action.logError, Action.shutdownStream Shut.Both] :=
  c3_undecodable_request_aborts [0] envOk [0] AbiError.DeserializationError
    (by rw [read_from_stream.eq_def]; rfl) rfl

/-- C5: when the outbound connection to the requested address fails, the
session aborts atomically: the trace shows the connect attempt, the logged
error and the shutdown of the control stream, and in particular no listener
is bound, no `Connected` response is written and no port is announced. -/
theorem c5_connect_failure_aborts (msg bytes addr : List Nat) (env : ConnectEnv)
    (e : Nat)
    (hr : read_from_stream msg = some bytes)
    (hd : decodeRequest bytes = Except.ok (Request.Connect addr))
    (hc : env.connectErr = some e) :
    worker msg env = some [Action.connectRemote addr,
      Action.logError, Action.shutdownStream Shut.Both] := by
  unfold worker handle_client handle_request_connect
  rw [hr]
  simp only [hd, hc]
  simp

/-- Witness for C5 at a concrete request and an environment whose outbound
connect fails with error code 111 (connection refused). -/
theorem c5_connect_failure_aborts_witness :
    worker msgEx { envOk with connectErr := some 111 } =
      some [Action.connectRemote [101, 120],
        Action.logError, Action.shutdownStream Shut.Both] :=
  c5_connect_failure_aborts msgEx msgEx [101, 120]
    { envOk with connectErr := some 111 } 111
    (by rw [read_from_stream.eq_def]; rfl) rfl rfl

/-- C6: on a successfully handled `Connect` request the ephemeral data-channel
listener is bound to the loopback interface with port 0, and the `Connected`
response written to the control stream carries exactly the listener's assigned
port together with the control stream's local and peer endpoint identity. -/
theorem c6_connect_success_response (msg bytes addr : List Nat)
    (env : ConnectEnv)
    (hr : read_from_stream msg = some bytes)
    (hd : decodeRequest bytes = Except.ok (Request.Connect addr))
    (hc : env.connectErr = none) (hb : env.bindErr = none)
    (hp : env.portErr = none) (hl : env.localErr = none)
    (hpe : env.peerErr = none) (hw : env.writeErr = none)
    (ha : env.acceptErr = none) :
    worker msg env = some [Action.connectRemote addr,
      Action.bindListener "127.0.0.1" 0,
      Action.writeControl (encodeResponse
        (Response.Connected env.assignedPort env.localAddr env.peerAddr)),
      Action.acceptData] := by
  unfold worker handle_client handle_request_connect
  rw [hr]
  simp only [hd, hc, hb, hp, hl, hpe, hw, ha]
  simp

/-- Witness for C6 at a concrete request and all-success environment. -/
theorem c6_connect_success_response_witness :
    worker msgEx envOk = some [Action.connectRemote [101, 120],
      Action.bindListener "127.0.0.1" 0,
      Action.writeControl (encodeResponse
        (Response.Connected envOk.assignedPort envOk.localAddr envOk.peerAddr)),
      Action.acceptData] :=
  c6_connect_success_response msgEx msgEx [101, 120] envOk
    (by rw [read_from_stream.eq_def]; rfl) rfl rfl rfl rfl rfl rfl rfl rfl

/-! ## Data-plane relay (`Server::transfer_data` and the loop in
`Server::handle_request_connect`) -/

/-- A live data-plane stream: `pending` bytes available to read, `closed`
records an orderly close by the peer (a read then returns 0 bytes),
`readErr`/`writeErr` inject transport errors, and `written` accumulates the
bytes successfully written to this stream. -/
structure TStream where
  readErr : Option Nat
  writeErr : Option Nat
  pending : List Nat
  closed : Bool
  written : List Nat
deriving DecidableEq

/-- Translated from `Server::transfer_data`: read up to `PROXY_BUFF_SIZE`
bytes from `src` (a read on a closed peer with nothing pending returns 0),
and iff the read returned more than 0 bytes, `write_all` them to `dst`.
Returns `Ok(n)` with the updated streams, or the first read/write error. -/
def transfer_data (src dst : TStream) :
    Except Nat (Nat × TStream × TStream) :=
  match src.readErr with
  | some e => Except.error e
  | none =>
    let n := min PROXY_BUFF_SIZE src.pending.length
    let data := src.pending.take PROXY_BUFF_SIZE
    let src' := { src with pending := src.pending.drop PROXY_BUFF_SIZE }
    if 0 < n then
      match dst.writeErr with
      | some e => Except.error e
      | none => Except.ok (n, src', { dst with written := dst.written ++ data })
    else
      Except.ok (0, src', dst)

/-- A descriptor is reported ready by `select` when data is pending, the peer
has closed (EOF is readable), or a read would immediately fail. -/
def stream_ready (s : TStream) : Bool :=
  s.readErr.isSome || !s.pending.isEmpty || s.closed

/-- Result of one iteration of the relay loop body. -/
inductive StepResult where
  | brk
  | blockedSelect
  | cont (proxy remote : TStream)
deriving DecidableEq

/-- Translated from the relay loop body in `Server::handle_request_connect`:
`select` blocks until `proxy` or `remote` is readable
(`StepResult.blockedSelect` models the indefinite wait when neither ever
becomes ready); for each ready descriptor, `transfer_data` moves one chunk to
the opposite stream, and only an `Err` result breaks the loop. -/
def relayStep (proxy remote : TStream) : StepResult :=
  let pReady := stream_ready proxy
  let rReady := stream_ready remote
  if pReady then
    match transfer_data proxy remote with
    | Except.error _ => StepResult.brk
    | Except.ok (_, p', r') =>
      if rReady then
        match transfer_data r' p' with
        | Except.error _ => StepResult.brk
        | Except.ok (_, r'', p'') => StepResult.cont p'' r''
      else
        StepResult.cont p' r'
  else if rReady then
    match transfer_data remote proxy with
    | Except.error _ => StepResult.brk
    | Except.ok (_, r', p') => StepResult.cont p' r'
  else
    StepResult.blockedSelect

/-- The enclave-facing data stream of the C1 scenario: open and idle. -/
def proxyEof : TStream :=
  { readErr := none, writeErr := none, pending := [], closed := false,
    written := [] }

/-- The network-facing stream of the C1 scenario: its peer performed an
orderly close and all data has been drained, so a read returns 0 bytes. -/
def remoteEof : TStream :=
  { readErr := none, writeErr := none, pending := [], closed := true,
    written := [] }

/-- C1 (code evidence): when the remote peer performs an orderly close, the
next relay iteration reads 0 bytes, `transfer_data` returns `Ok(0)` rather
than an error, and the loop body yields `cont` with both streams unchanged:
the relay loop does not terminate (the same iteration repeats forever, since
`select` keeps reporting the closed descriptor readable), no stream is shut
down (the relay performs no shutdown at all), and no zero-byte chunk is
written to the opposite stream. -/
theorem c1_zero_read_does_not_terminate :
    transfer_data remoteEof proxyEof = Except.ok (0, remoteEof, proxyEof) ∧
    relayStep proxyEof remoteEof = StepResult.cont proxyEof remoteEof ∧
    proxyEof.written = [] ∧ remoteEof.written = [] := by
  refine ⟨rfl, ?_, rfl, rfl⟩
  rfl

/-- C7: in a relay iteration, a read returns at most `PROXY_BUFF_SIZE = 4192`
bytes — exactly `min PROXY_BUFF_SIZE` (available bytes) — and a non-zero read
of `n` bytes is written in full and in order to the opposite stream within
the same iteration, before the loop re-evaluates readiness. -/
theorem c7_chunk_bounded_and_forwarded (src dst : TStream) (n : Nat)
    (src' dst' : TStream)
    (h : transfer_data src dst = Except.ok (n, src', dst')) :
    PROXY_BUFF_SIZE = 4192 ∧
    n ≤ PROXY_BUFF_SIZE ∧
    n = min PROXY_BUFF_SIZE src.pending.length ∧
    (0 < n → dst'.written = dst.written ++ src.pending.take n) ∧
    (n = 0 → dst'.written = dst.written) := by
  unfold transfer_data at h
  match he : src.readErr with
  | some e => rw [he] at h; exact absurd h (by simp)
  | none =>
    rw [he] at h
    simp only at h
    by_cases hn : 0 < min PROXY_BUFF_SIZE src.pending.length
    · rw [if_pos hn] at h
      match hw : dst.writeErr with
      | some e => rw [hw] at h; exact absurd h (by simp)
      | none =>
        rw [hw] at h
        simp only [Except.ok.injEq, Prod.mk.injEq] at h
        obtain ⟨h1, h2, h3⟩ := h
        refine ⟨rfl, ?_, ?_, ?_, ?_⟩
        · omega
        · omega
        · intro _
          rw [← h3]
          simp only [← h1]
          have : src.pending.take PROXY_BUFF_SIZE =
              src.pending.take (min PROXY_BUFF_SIZE src.pending.length) := by
            rcases Nat.le_total PROXY_BUFF_SIZE src.pending.length with hle | hle
            · rw [Nat.min_eq_left hle]
            · rw [Nat.min_eq_right hle, List.take_of_length_le hle,
                List.take_length]
          rw [this]
        · intro h0
          omega
    · rw [if_neg hn] at h
      simp only [Except.ok.injEq, Prod.mk.injEq] at h
      obtain ⟨h1, h2, h3⟩ := h
      refine ⟨rfl, by omega, by omega, by omega, ?_⟩
      intro _
      rw [← h3]

/-- Witness for C7: 3 pending bytes are read (n = 3 ≤ 4192) and appended in
order to the destination's previously written bytes. -/
theorem c7_chunk_bounded_and_forwarded_witness :
    PROXY_BUFF_SIZE = 4192 ∧
    3 ≤ PROXY_BUFF_SIZE ∧
    (3 : Nat) = min PROXY_BUFF_SIZE
      (TStream.mk none none [10, 20, 30] false []).pending.length ∧
    (0 < 3 → (TStream.mk none none [] false [9, 10, 20, 30]).written =
      (TStream.mk none none [] false [9]).written ++
        (TStream.mk none none [10, 20, 30] false []).pending.take 3) ∧
    ((3 : Nat) = 0 → (TStream.mk none none [] false [9, 10, 20, 30]).written =
      (TStream.mk none none [] false [9]).written) :=
  c7_chunk_bounded_and_forwarded
    (TStream.mk none none [10, 20, 30] false [])
    (TStream.mk none none [] false [9]) 3
    (TStream.mk none none [] false [])
    (TStream.mk none none [] false [9, 10, 20, 30]) rfl

/-! ## Listener/dispatch loop (`Server::run`) -/

/-- Outcome of one `T::incoming(&listener)` call in `Server::run`: an accepted
control connection (identified by a number) or an accept failure. -/
inductive AcceptEvent where
  | conn (id : Nat)
  | failure (e : Nat)
deriving DecidableEq

/-- Translated from the loop in `Server::run` [source lines 214-224]: each
iteration calls `T::incoming(&listener).unwrap()` and spawns a worker for the
accepted stream.  The model folds the loop over the finite list of accept
outcomes the listener will produce, returning the connections handed to
workers and `some e` if the loop died with a panic (`unwrap` of `Err(e)`).
After a panic no further event is processed. -/
def runLoop : List AcceptEvent → List Nat × Option Nat
  | [] => ([], none)
  | AcceptEvent.failure e :: _ => ([], some e)
  | AcceptEvent.conn c :: rest =>
    let (hs, p) := runLoop rest
    (c :: hs, p)

/-- C2 counterexample: with a single failed accept followed by a well-formed
connection 3, the loop does not continue — it panics with the accept error
and connection 3 is never dispatched — contradicting the claim that an accept
failure is handled locally and the loop keeps accepting. -/
theorem c2_accept_failure_counterexample :
    (runLoop [AcceptEvent.failure 9, AcceptEvent.conn 3]).2 = some 9 ∧
    3 ∉ (runLoop [AcceptEvent.failure 9, AcceptEvent.conn 3]).1 := by
  constructor
  · rfl
  · simp [runLoop]

/-- C2 amended: a failure of a single accept call terminates the
listener/dispatch loop — `Server::run` unwraps the accept result, so the loop
panics with that error, and no subsequent control connection is accepted or
dispatched. -/
theorem c2_accept_failure_kills_loop (e : Nat) (rest : List AcceptEvent) :
    runLoop (AcceptEvent.failure e :: rest) = ([], some e) :=
  rfl

/-! ## AESM client (`aesm-client/src/lib.rs`) -/

/-- Modelled from the spec: the `Error` variants of the aesm-client crate
needed here (`error.rs` is missing from the sources; the variant and its
payload are taken from the uses in `QuoteType::from_u32`). -/
inductive AesmError where
  | InvalidQuoteType (v : Nat)
deriving DecidableEq

/-- Translated from `QuoteType` in aesm-client lib.rs (`repr(u32)`). -/
inductive QuoteType where
  | Unlinkable
  | Linkable
deriving DecidableEq

/-- Translated from `impl Into<u32> for QuoteType`. -/
def quoteTypeIntoU32 : QuoteType → Nat
  | QuoteType.Unlinkable => 0
  | QuoteType.Linkable => 1

/-- Translated from `QuoteType::from_u32`. -/
def quoteTypeFromU32 (v : Nat) : Except AesmError QuoteType :=
  match v with
  | 0 => Except.ok QuoteType.Unlinkable
  | 1 => Except.ok QuoteType.Linkable
  | _ => Except.error (AesmError.InvalidQuoteType v)

/-- C9: `QuoteType` conversion round-trips — `from_u32` of `Into<u32>` of any
`QuoteType` is `Ok` of the same value, `Unlinkable` maps to 0 and `Linkable`
to 1, and `from_u32` of any other `u32` is `Err(InvalidQuoteType(v))`. -/
theorem c9_quote_type_roundtrip (q : QuoteType) (v : Nat)
    (hv : v < 2 ^ 32) (h0 : v ≠ 0) (h1 : v ≠ 1) :
    quoteTypeFromU32 (quoteTypeIntoU32 q) = Except.ok q ∧
    quoteTypeIntoU32 QuoteType.Unlinkable = 0 ∧
    quoteTypeIntoU32 QuoteType.Linkable = 1 ∧
    quoteTypeFromU32 v = Except.error (AesmError.InvalidQuoteType v) := by
  refine ⟨?_, rfl, rfl, ?_⟩
  · cases q <;> rfl
  · match v, h0, h1 with
    | n + 2, _, _ => rfl

/-- Witness for C9 at `q = Linkable` and `v = 7`. -/
theorem c9_quote_type_roundtrip_witness :
    quoteTypeFromU32 (quoteTypeIntoU32 QuoteType.Linkable) =
      Except.ok QuoteType.Linkable ∧
    quoteTypeIntoU32 QuoteType.Unlinkable = 0 ∧
    quoteTypeIntoU32 QuoteType.Linkable = 1 ∧
    quoteTypeFromU32 7 = Except.error (AesmError.InvalidQuoteType 7) :=
  c9_quote_type_roundtrip QuoteType.Linkable 7
    (by norm_num) (by norm_num) (by norm_num)

/-- `size_of::<sgx_att_key_id_ext_t>()`: 256 bytes
(`sgx_ql_att_key_id_t` of 158 bytes, `spid` 16, `att_key_type` 2,
`reserved` 80). -/
def SGX_ATT_KEY_ID_EXT_SIZE : Nat := 256

/-- Byte offset of `base.algorithm_id` inside `sgx_att_key_id_ext_t`:
id 2 + version 2 + mrsigner_length 2 + mrsigner 48 + prod_id 4 +
extended_prod_id 16 + config_id 64 + family_id 16. -/
def ALGORITHM_ID_OFFSET : Nat := 154

/-- The `algorithm_id` field of a key-id chunk: the little-endian `u32` read
(unaligned) at `ALGORITHM_ID_OFFSET`. -/
def chunkAlgorithmId (c : List Nat) : Nat :=
  c.getD ALGORITHM_ID_OFFSET 0 +
  c.getD (ALGORITHM_ID_OFFSET + 1) 0 * 256 +
  c.getD (ALGORITHM_ID_OFFSET + 2) 0 * 65536 +
  c.getD (ALGORITHM_ID_OFFSET + 3) 0 * 16777216

/-- `slice::chunks_exact(n)`: the consecutive complete `n`-byte chunks of `l`;
a trailing chunk shorter than `n` is dropped. -/
def chunksExact (n : Nat) (l : List Nat) : List (List Nat) :=
  if h : 0 < n ∧ n ≤ l.length then
    l.take n :: chunksExact n (l.drop n)
  else
    []
termination_by l.length
decreasing_by
  simp only [List.length_drop]
  omega

/-- The `for` loop of `AesmKeyIds::select_algorithm_id`: return
`Ok(Some(chunk))` at the first chunk whose `algorithm_id` equals the
requested one, else fall through to `Ok(None)`. -/
def selectLoop (algo : Nat) :
    List (List Nat) → Except AesmError (Option (List Nat))
  | [] => Except.ok none
  | c :: rest =>
    if chunkAlgorithmId c = algo then Except.ok (some c)
    else selectLoop algo rest

/-- Translated from `AesmKeyIds::select_algorithm_id`: iterate over the
complete `SGX_ATT_KEY_ID_EXT_SIZE`-byte chunks of the key-ids buffer. -/
def select_algorithm_id (keys : List Nat) (algo : Nat) :
    Except AesmError (Option (List Nat)) :=
  selectLoop algo (chunksExact SGX_ATT_KEY_ID_EXT_SIZE keys)

lemma selectLoop_eq_find (algo : Nat) (cs : List (List Nat)) :
    selectLoop algo cs =
      Except.ok (cs.find? (fun c => chunkAlgorithmId c == algo)) := by
  induction cs with
  | nil => rfl
  | cons c rest ih =>
    by_cases h : chunkAlgorithmId c = algo
    · simp [selectLoop, List.find?_cons, h]
    · have hb : (chunkAlgorithmId c == algo) = false := by
        simp [h]
      simp [selectLoop, List.find?_cons, h, hb, ih]

lemma chunksExact_small (n : Nat) (l : List Nat) (h : l.length < n) :
    chunksExact n l = [] := by
  rw [chunksExact.eq_def,
    dif_neg (show ¬(0 < n ∧ n ≤ l.length) by omega)]

lemma chunksExact_step (n : Nat) (l : List Nat) (h1 : 0 < n)
    (h2 : n ≤ l.length) :
    chunksExact n l = l.take n :: chunksExact n (l.drop n) := by
  rw [chunksExact.eq_def, dif_pos ⟨h1, h2⟩]

/-- A trailing partial chunk does not change the complete chunks, hence is
never examined by the selection loop. -/
lemma chunksExact_append_trailing :
    ∀ fuel (keys t : List Nat), keys.length ≤ fuel →
      keys.length % SGX_ATT_KEY_ID_EXT_SIZE = 0 →
      t.length < SGX_ATT_KEY_ID_EXT_SIZE →
      chunksExact SGX_ATT_KEY_ID_EXT_SIZE (keys ++ t) =
        chunksExact SGX_ATT_KEY_ID_EXT_SIZE keys := by
  intro fuel
  induction fuel with
  | zero =>
    intro keys t h1 h2 h3
    have hk : keys = [] := List.eq_nil_of_length_eq_zero (Nat.le_zero.mp h1)
    subst hk
    simp only [List.nil_append]
    rw [chunksExact_small _ t h3,
      chunksExact_small _ [] (by simp [SGX_ATT_KEY_ID_EXT_SIZE])]
  | succ m ih =>
    intro keys t h1 h2 h3
    by_cases hk : keys.length = 0
    · have hke : keys = [] := List.eq_nil_of_length_eq_zero hk
      subst hke
      simp only [List.nil_append]
      rw [chunksExact_small _ t h3,
        chunksExact_small _ [] (by simp [SGX_ATT_KEY_ID_EXT_SIZE])]
    · have hge : SGX_ATT_KEY_ID_EXT_SIZE ≤ keys.length := by
        unfold SGX_ATT_KEY_ID_EXT_SIZE at h2 ⊢
        omega
      rw [chunksExact_step _ (keys ++ t)
          (by simp [SGX_ATT_KEY_ID_EXT_SIZE])
          (by simp only [List.length_append]; omega)]
      rw [chunksExact_step _ keys (by simp [SGX_ATT_KEY_ID_EXT_SIZE]) hge]
      rw [List.take_append_of_le_length hge,
        List.drop_append_of_le_length hge]
      congr 1
      apply ih
      · simp only [List.length_drop]
        unfold SGX_ATT_KEY_ID_EXT_SIZE at hge ⊢
        omega
      · simp only [List.length_drop]
        unfold SGX_ATT_KEY_ID_EXT_SIZE at h2 hge ⊢
        omega
      · exact h3

/-- C10: `select_algorithm_id` never returns an `Err`: it returns `Ok` of the
first complete `SGX_ATT_KEY_ID_EXT_SIZE`-byte chunk of the buffer whose
`algorithm_id` field equals the requested id (`Ok(None)` when no complete
chunk matches), and bytes of a trailing partial chunk are never examined:
appending fewer than a chunk's worth of bytes to a whole number of chunks
leaves the result unchanged. -/
theorem c10_select_algorithm_id (keys1 keys2 t : List Nat) (algo1 algo2 : Nat)
    (hk : keys2.length % SGX_ATT_KEY_ID_EXT_SIZE = 0)
    (ht : t.length < SGX_ATT_KEY_ID_EXT_SIZE) :
    SGX_ATT_KEY_ID_EXT_SIZE = 256 ∧
    select_algorithm_id keys1 algo1 =
      Except.ok ((chunksExact SGX_ATT_KEY_ID_EXT_SIZE keys1).find?
        (fun c => chunkAlgorithmId c == algo1)) ∧
    select_algorithm_id (keys2 ++ t) algo2 = select_algorithm_id keys2 algo2 := by
  refine ⟨rfl, selectLoop_eq_find _ _, ?_⟩
  unfold select_algorithm_id
  rw [chunksExact_append_trailing keys2.length keys2 t le_rfl hk ht]

/-- Witness for C10: one whole 256-byte chunk with a 3-byte trailing fragment
appended behaves like the chunk alone, and selection on a short buffer is
`Ok` of the first matching complete chunk. -/
theorem c10_select_algorithm_id_witness :
    SGX_ATT_KEY_ID_EXT_SIZE = 256 ∧
    select_algorithm_id [1, 2, 3, 4, 5] 0 =
      Except.ok ((chunksExact SGX_ATT_KEY_ID_EXT_SIZE [1, 2, 3, 4, 5]).find?
        (fun c => chunkAlgorithmId c == 0)) ∧
    select_algorithm_id (List.replicate 256 0 ++ [9, 9, 9]) 1 =
      select_algorithm_id (List.replicate 256 0) 1 :=
  c10_select_algorithm_id [1, 2, 3, 4, 5] (List.replicate 256 0) [9, 9, 9] 0 1
    (by simp only [List.length_replicate, SGX_ATT_KEY_ID_EXT_SIZE])
    (by simp only [List.length_cons, List.length_nil, SGX_ATT_KEY_ID_EXT_SIZE]
        omega)

end RustSgx
